import Mathlib

/-!
Verification of the pharmacy-bot scraping pipeline (`src/pharmacy_bot.py`).

The Python program drives a headless browser; here the rendered pages are
modelled as explicit data (element lists, link lists, page source and visible
text), and every pure computation of the source — the regex matchers, the
cascading identifier-extraction strategies of `search_pharmacies`, the field
extraction of `get_pharmacy_details`, and the dispatch/normalization logic of
`handle_message` — is translated to executable Lean definitions over
`List Char`.  Python regexes are translated construct by construct, including
`re.match`'s acceptance of a trailing newline before `$`, greedy/lazy
quantifier preference and leftmost-match search order.  Browser failures
(exceptions caught by the Python code) are modelled by `Option` environments;
code paths whose results are only logged and never affect the returned values
(diagnostic logging, the JavaScript metric probe of lines 507-543, rank
captures) are omitted, and exception-only fallback paths are unreachable in
this pure model.
-/

/-! ## ASCII character classes (Python `re` semantics on ASCII input) -/

def isUpperA (c : Char) : Bool := 65 ≤ c.toNat && c.toNat ≤ 90

def isLowerA (c : Char) : Bool := 97 ≤ c.toNat && c.toNat ≤ 122

def isDigitC (c : Char) : Bool := 48 ≤ c.toNat && c.toNat ≤ 57

def isAlnumU (c : Char) : Bool := isUpperA c || isDigitC c

def isAlphaC (c : Char) : Bool := isUpperA c || isLowerA c

def isWordC (c : Char) : Bool := isAlphaC c || isDigitC c || c = '_'

def isWsC (c : Char) : Bool :=
  c = ' ' || c = '\t' || c = '\n' || c = '\r' || c = '\x0b' || c = '\x0c'

def toUpperC (c : Char) : Char :=
  if isLowerA c then Char.ofNat (c.toNat - 32) else c

def toLowerC (c : Char) : Char :=
  if isUpperA c then Char.ofNat (c.toNat + 32) else c

/-! ## List-of-char string utilities (Python `str` operations) -/

/-- Python `str.strip()`: drop ASCII whitespace at both ends. -/
def stripL (cs : List Char) : List Char :=
  ((cs.dropWhile isWsC).reverse.dropWhile isWsC).reverse

/-- Python `pat in s` (substring containment). -/
def containsL (pat : List Char) : List Char → Bool
  | [] => pat.isEmpty
  | c :: t => pat.isPrefixOf (c :: t) || containsL pat t

/-- Prefix of `cs` before the first occurrence of `sep` (whole list if absent). -/
def beforeFirstL (sep : List Char) : List Char → List Char
  | [] => []
  | c :: t => if sep.isPrefixOf (c :: t) then [] else c :: beforeFirstL sep t

/-- Suffix of `cs` after the first occurrence of `sep`, if any. -/
def afterFirstL (sep : List Char) : List Char → Option (List Char)
  | [] => if sep.isEmpty then some [] else none
  | c :: t =>
    if sep.isPrefixOf (c :: t) then some ((c :: t).drop sep.length)
    else afterFirstL sep t

def pyStripS (s : String) : String := ⟨stripL s.data⟩

def pyUpperS (s : String) : String := ⟨s.data.map toUpperC⟩

/-! ## The ODS-code shape `[A-Z][A-Z0-9]{4}` and its Python variants -/

/-- Exactly five characters matching `[A-Z][A-Z0-9]{4}`. -/
def odsShapeL : List Char → Bool
  | [a, b, c, d, e] => isUpperA a && isAlnumU b && isAlnumU c && isAlnumU d && isAlnumU e
  | _ => false

/-- Python `re.match(r'^[A-Z][A-Z0-9]{4}$', s)` as a Bool: `$` also matches
just before a single trailing newline. -/
def pyMatchOds (s : String) : Bool :=
  match s.data with
  | a :: b :: c :: d :: e :: rest =>
    odsShapeL [a, b, c, d, e] && decide (rest = [] ∨ rest = ['\n'])
  | _ => false

/-- The same match with `re.IGNORECASE` (line 676 of the source). -/
def pyMatchOdsCI (s : String) : Bool :=
  match s.data with
  | a :: b :: c :: d :: e :: rest =>
    isAlphaC a && (isAlphaC b || isDigitC b) && (isAlphaC c || isDigitC c) &&
    (isAlphaC d || isDigitC d) && (isAlphaC e || isDigitC e) &&
    decide (rest = [] ∨ rest = ['\n'])
  | _ => false

def denylist : List String := ["CLASS", "WIDTH", "HTTPS"]

/-- `is_valid_ods_code` (lines 47-53), truthiness collapsed to `Bool`. -/
def is_valid_ods_code (code : String) : Bool :=
  pyMatchOds code && decide (code ∉ denylist)

/-- One attempt of `[A-Z][A-Z0-9]{4}` at the head of the list: on success
returns the five matched characters and the rest of the input. -/
def matchOds5 : List Char → Option (List Char × List Char)
  | a :: b :: c :: d :: e :: rest =>
    if odsShapeL [a, b, c, d, e] then some ([a, b, c, d, e], rest) else none
  | _ => none

/-- Python `re.findall(r'[A-Z][A-Z0-9]{4}', s)`: leftmost, non-overlapping. -/
def findAllOdsGo : Nat → List Char → List (List Char)
  | 0, _ => []
  | _, [] => []
  | fuel + 1, c :: t =>
    match matchOds5 (c :: t) with
    | some (cap, rest) => cap :: findAllOdsGo fuel rest
    | none => findAllOdsGo fuel t

def findAllOds (s : String) : List String :=
  (findAllOdsGo s.data.length s.data).map (fun l => (⟨l⟩ : String))

/-- Python `re.findall(r'\b([A-Z][A-Z0-9]{4})\b', s)`: the scanner threads the
previous character to decide the left word boundary. -/
def findAllOdsBGo : Nat → Option Char → List Char → List (List Char)
  | 0, _, _ => []
  | _, _, [] => []
  | fuel + 1, prev, c :: t =>
    match matchOds5 (c :: t) with
    | some (cap, rest) =>
      if (match prev with | none => true | some p => !isWordC p) &&
         (match rest.head? with | none => true | some r => !isWordC r) then
        cap :: findAllOdsBGo fuel (some (cap.getLastD c)) rest
      else findAllOdsBGo fuel (some c) t
    | none => findAllOdsBGo fuel (some c) t

def findAllOdsB (s : String) : List String :=
  (findAllOdsBGo s.data.length none s.data).map (fun l => (⟨l⟩ : String))

/-! ## The postcode regex of `handle_message`
`re.match(r'^([A-Z]{1,2}[0-9][A-Z0-9]?)[ -]?([0-9][A-Z]{2})$', postcode, re.IGNORECASE)`
(line 754).  The input has already been uppercased at line 750, so the
`IGNORECASE` flag is inert and the classes are modelled in uppercase.
Backtracking preference is modelled exactly: `{1,2}` tries two letters first,
the optional atoms try the consuming branch first, `$` also matches before a
single trailing newline.  `ukMatch` returns the two capture groups. -/

def ukInward (ow : List Char) (rest : List Char) : Option (List Char × List Char) :=
  match rest with
  | d :: l1 :: l2 :: r =>
    if isDigitC d = true ∧ isUpperA l1 = true ∧ isUpperA l2 = true ∧
       (r = [] ∨ r = ['\n']) then
      some (ow, [d, l1, l2])
    else none
  | _ => none

def ukSep (ow : List Char) (rest : List Char) : Option (List Char × List Char) :=
  match rest with
  | c :: t =>
    if c = ' ' ∨ c = '-' then
      match ukInward ow t with
      | some r => some r
      | none => ukInward ow (c :: t)
    else ukInward ow (c :: t)
  | [] => none

def ukOpt (ow : List Char) (rest : List Char) : Option (List Char × List Char) :=
  match rest with
  | c :: t =>
    if isAlnumU c then
      match ukSep (ow ++ [c]) t with
      | some r => some r
      | none => ukSep ow (c :: t)
    else ukSep ow (c :: t)
  | [] => none

def ukDigit (letters : List Char) (rest : List Char) : Option (List Char × List Char) :=
  match rest with
  | c :: t => if isDigitC c then ukOpt (letters ++ [c]) t else none
  | [] => none

def ukMatch (cs : List Char) : Option (List Char × List Char) :=
  match cs with
  | a :: b :: t =>
    if isUpperA a then
      if isUpperA b then
        match ukDigit [a, b] t with
        | some r => some r
        | none => ukDigit [a] (b :: t)
      else ukDigit [a] (b :: t)
    else none
  | _ => none

/-- Lines 750-764: `postcode.upper().strip()`, match, then
`f"{group(1)} {group(2)}"`. -/
def ukNormalize (s : String) : Option String :=
  match ukMatch (stripL (s.data.map toUpperC)) with
  | some (ow, iw) => some ⟨ow ++ ' ' :: iw⟩
  | none => none

/-! ## The UK postcode search of `get_pharmacy_details`
`re.search(r'\b[A-Z]{1,2}\d[A-Z\d]?\s*\d[A-Z]{2}\b', page_text)` (line 439):
an unanchored leftmost search whose result is the whole matched substring. -/

/-- No word character at a (possibly absent) position: a `\b` next to a word
character inside the match succeeds exactly when this holds. -/
def noWordB : Option Char → Bool
  | none => true
  | some c => !isWordC c

def pcEnd (pre : List Char) (cs : List Char) : Option (List Char) :=
  match cs with
  | d :: l1 :: l2 :: rest =>
    if isDigitC d = true ∧ isUpperA l1 = true ∧ isUpperA l2 = true ∧
       noWordB rest.head? = true then
      some (pre ++ [d, l1, l2])
    else none
  | _ => none

def pcWs (pre : List Char) (cs : List Char) : Option (List Char) :=
  let ws := cs.takeWhile isWsC
  pcEnd (pre ++ ws) (cs.drop ws.length)

def pcOpt (pre : List Char) (cs : List Char) : Option (List Char) :=
  match cs with
  | x :: t =>
    if isAlnumU x then
      match pcWs (pre ++ [x]) t with
      | some g => some g
      | none => pcWs pre (x :: t)
    else pcWs pre (x :: t)
  | [] => pcWs pre []

def pcAfterLetters (ls : List Char) (cs : List Char) : Option (List Char) :=
  match cs with
  | d :: t => if isDigitC d then pcOpt (ls ++ [d]) t else none
  | [] => none

def pcLetters (cs : List Char) : Option (List Char) :=
  match cs with
  | a :: b :: t =>
    if isUpperA a then
      if isUpperA b then
        match pcAfterLetters [a, b] t with
        | some g => some g
        | none => pcAfterLetters [a] (b :: t)
      else pcAfterLetters [a] (b :: t)
    else none
  | _ => none

def pcMatchAt (prev : Option Char) (cs : List Char) : Option (List Char) :=
  if noWordB prev then pcLetters cs else none

def searchUkPcGo : Nat → Option Char → List Char → Option (List Char)
  | 0, _, _ => none
  | fuel + 1, prev, cs =>
    match pcMatchAt prev cs with
    | some g => some g
    | none =>
      match cs with
      | [] => none
      | c :: t => searchUkPcGo fuel (some c) t

def searchUkPc (s : String) : Option String :=
  (searchUkPcGo (s.data.length + 1) none s.data).map (fun l => (⟨l⟩ : String))

/-! ## Metric extraction (lines 447-505)
Five metrics share the pattern
`(?:LABEL1|LABEL2)[:\s]*([0-9,\.]+)[^\(]*(?:\(#([0-9,]+)\))?`; EPS uses
`(?:EPS|EPS Takeup|EPS Nominations)[:\s]*([0-9]+%)[^\(]*(?:\(#?([0-9,]+)[^)]*\))?`.
The rank group is captured faithfully but, as in the source, only the value
group reaches the returned record. -/

def isColonWs (c : Char) : Bool := c = ':' || isWsC c

def isValC (c : Char) : Bool := isDigitC c || c = ',' || c = '.'

def isRankC (c : Char) : Bool := isDigitC c || c = ','

/-- Tail of the shared metric pattern, applied after a label alternative. -/
def metricValRank (cs : List Char) : Option (String × Option String) :=
  let r := cs.dropWhile isColonWs
  let v := r.takeWhile isValC
  if v.isEmpty then none
  else
    let r2 := (r.drop v.length).dropWhile (fun c => !(c = '('))
    let rank :=
      match r2 with
      | '(' :: '#' :: t =>
        let digs := t.takeWhile isRankC
        if digs.isEmpty then none
        else
          match t.drop digs.length with
          | ')' :: _ => some (⟨digs⟩ : String)
          | _ => none
      | _ => none
    some (⟨v⟩, rank)

/-- Alternation over the label list: Python tries a later alternative at the
same position when the tail fails after an earlier one. -/
def metricMatchAt (labels : List (List Char)) (cs : List Char) : Option (String × Option String) :=
  match labels with
  | [] => none
  | lab :: rest =>
    if lab.isPrefixOf cs then
      match metricValRank (cs.drop lab.length) with
      | some r => some r
      | none => metricMatchAt rest cs
    else metricMatchAt rest cs

def searchMetricGo (labels : List (List Char)) : Nat → List Char → Option (String × Option String)
  | 0, _ => none
  | fuel + 1, cs =>
    match metricMatchAt labels cs with
    | some r => some r
    | none =>
      match cs with
      | [] => none
      | _ :: t => searchMetricGo labels fuel t

def searchMetric (labels : List String) (s : String) : Option (String × Option String) :=
  searchMetricGo (labels.map String.data) (s.data.length + 1) s.data

/-- Tail of the EPS pattern: `[0-9]+%` value, `\(#?([0-9,]+)[^)]*\)` rank. -/
def epsValRank (cs : List Char) : Option (String × Option String) :=
  let r := cs.dropWhile isColonWs
  let v := r.takeWhile isDigitC
  if v.isEmpty then none
  else
    match r.drop v.length with
    | '%' :: r1 =>
      let r2 := r1.dropWhile (fun c => !(c = '('))
      let rank :=
        match r2 with
        | '(' :: t0 =>
          let t := match t0 with | '#' :: t1 => t1 | _ => t0
          let digs := t.takeWhile isRankC
          if digs.isEmpty then none
          else
            match (t.drop digs.length).dropWhile (fun c => !(c = ')')) with
            | ')' :: _ => some (⟨digs⟩ : String)
            | _ => none
        | _ => none
      some (⟨v ++ ['%']⟩, rank)
    | _ => none

def epsMatchAt (labels : List (List Char)) (cs : List Char) : Option (String × Option String) :=
  match labels with
  | [] => none
  | lab :: rest =>
    if lab.isPrefixOf cs then
      match epsValRank (cs.drop lab.length) with
      | some r => some r
      | none => epsMatchAt rest cs
    else epsMatchAt rest cs

def searchEpsGo (labels : List (List Char)) : Nat → List Char → Option (String × Option String)
  | 0, _ => none
  | fuel + 1, cs =>
    match epsMatchAt labels cs with
    | some r => some r
    | none =>
      match cs with
      | [] => none
      | _ :: t => searchEpsGo labels fuel t

def searchEps (labels : List String) (s : String) : Option (String × Option String) :=
  searchEpsGo (labels.map String.data) (s.data.length + 1) s.data

/-! ## Name cleanup `re.sub(r'\s*\([A-Z0-9]+\)\s*$', '', name)` (line 389) -/

def parenTailAt (cs : List Char) : Bool :=
  match cs.dropWhile isWsC with
  | '(' :: t =>
    let digs := t.takeWhile isAlnumU
    if digs.isEmpty then false
    else
      match t.drop digs.length with
      | ')' :: r2 => (r2.dropWhile isWsC).isEmpty
      | _ => false
  | _ => false

def stripParenTail : List Char → List Char
  | [] => []
  | c :: t => if parenTailAt (c :: t) then [] else c :: stripParenTail t

/-! ## Name regex fallback (lines 410, 587)
`re.search(r'([A-Za-z0-9\s&]+\bPharmacy\b|Boots|Lloyds\s+Pharmacy|ASDA\s+Pharmacy|Superdrug)', page_text)` -/

def classAC (c : Char) : Bool := isAlphaC c || isDigitC c || isWsC c || c = '&'

def pharmacyLit : List Char := "Pharmacy".data

/-- Greedy backtracking for `[A-Za-z0-9\s&]+\bPharmacy\b`: try the longest
class run first (split point `j+1`), then shorter ones. -/
def tryAJ (cs : List Char) : Nat → Option (List Char)
  | 0 => none
  | j + 1 =>
    let ok :=
      (match cs.get? j with | some p => !isWordC p | none => false) &&
      pharmacyLit.isPrefixOf (cs.drop (j + 1)) &&
      noWordB ((cs.drop (j + 1 + 8)).head?)
    if ok then some (cs.take (j + 1 + 8)) else tryAJ cs j

def matchAAt (cs : List Char) : Option (List Char) :=
  let n := (cs.takeWhile classAC).length
  if n = 0 then none else tryAJ cs n

/-- `W1\s+W2` with greedy `\s+` (used for `Lloyds\s+Pharmacy` and
`ASDA\s+Pharmacy`). -/
def matchSepLit (w1 w2 : List Char) (cs : List Char) : Option (List Char) :=
  if w1.isPrefixOf cs then
    let r := cs.drop w1.length
    let ws := r.takeWhile isWsC
    if ws.isEmpty then none
    else if w2.isPrefixOf (r.drop ws.length) then some (w1 ++ ws ++ w2) else none
  else none

def matchNameAt (cs : List Char) : Option (List Char) :=
  match matchAAt cs with
  | some g => some g
  | none =>
    if "Boots".data.isPrefixOf cs then some "Boots".data
    else
      match matchSepLit "Lloyds".data "Pharmacy".data cs with
      | some g => some g
      | none =>
        match matchSepLit "ASDA".data "Pharmacy".data cs with
        | some g => some g
        | none =>
          if "Superdrug".data.isPrefixOf cs then some "Superdrug".data else none

def nameSearch : List Char → Option (List Char)
  | [] => none
  | c :: t =>
    match matchNameAt (c :: t) with
    | some g => some g
    | none => nameSearch t

/-! ## Address extraction (lines 421-436) -/

/-- `(?:ADDRESS|Address|address)[:\s]+(.*?)(?:\n|$)` at one position: group 1
runs from after the greedy `[:\s]+` up to the next newline or the end. -/
def addrLabelTry (lab : List Char) (cs : List Char) : Option (List Char) :=
  if lab.isPrefixOf cs then
    let r := cs.drop lab.length
    let ws := r.takeWhile isColonWs
    if ws.isEmpty then none
    else some ((r.drop ws.length).takeWhile (fun c => !(c = '\n')))
  else none

def addrLabelAt (cs : List Char) : Option (List Char) :=
  match addrLabelTry "ADDRESS".data cs with
  | some g => some g
  | none =>
    match addrLabelTry "Address".data cs with
    | some g => some g
    | none => addrLabelTry "address".data cs

def addrSearch : List Char → Option (List Char)
  | [] => none
  | c :: t =>
    match addrLabelAt (c :: t) with
    | some g => some g
    | none => addrSearch t

/-- Comma-separated segments `[^,\n]+(?:,[^,\n]+){2,}` starting at the head;
returns the extra consumed length and segment count past the first one. -/
def extraSegsGo : Nat → List Char → Nat → Nat → Nat × Nat
  | 0, _, count, consumed => (count, consumed)
  | fuel + 1, rest, count, consumed =>
    match rest with
    | ',' :: t =>
      let seg := t.takeWhile (fun c => !(c = ',') && !(c = '\n'))
      if seg.isEmpty then (count, consumed)
      else extraSegsGo fuel (t.drop seg.length) (count + 1) (consumed + 1 + seg.length)
    | _ => (count, consumed)

def commaAddrAt (cs : List Char) : Option (List Char) :=
  let seg0 := cs.takeWhile (fun c => !(c = ',') && !(c = '\n'))
  if seg0.isEmpty then none
  else
    let p := extraSegsGo cs.length (cs.drop seg0.length) 0 0
    if 2 ≤ p.1 then some (cs.take (seg0.length + p.2)) else none

/-- The lazy gap `.*?` after the pharmacy name: grow the gap one character at
a time, never across a newline. -/
def gapScan : Nat → List Char → Option (List Char)
  | 0, _ => none
  | fuel + 1, cs =>
    match commaAddrAt cs with
    | some g => some g
    | none =>
      match cs with
      | [] => none
      | c :: t => if c = '\n' then none else gapScan fuel t

/-- Search for `(?:NAME.*?)([^,\n]+(?:,[^,\n]+){2,})` with `NAME` taken
literally (Python applies `re.escape`). -/
def nameAddrScan (name : List Char) : Nat → List Char → Option (List Char)
  | 0, _ => none
  | fuel + 1, cs =>
    match cs with
    | [] => none
    | _ :: t =>
      if name.isPrefixOf cs then
        match gapScan ((cs.drop name.length).length + 1) (cs.drop name.length) with
        | some g => some g
        | none => nameAddrScan name fuel t
      else nameAddrScan name fuel t

def extractAddress (name : String) (text : String) : String :=
  match addrSearch text.data with
  | some g => ⟨stripL g⟩
  | none =>
    match nameAddrScan name.data text.data.length text.data with
    | some g => ⟨stripL g⟩
    | none => "Address not found"

/-! ## Rendered page models
A rendered DOM is modelled by what the Selenium calls of the source can
observe from it: CSS-selector and tag queries returning elements (text plus
contained anchors), the list of all anchors, the raw page source and the
visible body text.  `resubmitSource` is the page source observed after the
JavaScript search re-submission of ATTEMPT 5. -/

structure Anchor where
  href : String
  text : String
deriving DecidableEq

structure Elem where
  text : String
  anchors : List Anchor
deriving DecidableEq

structure SearchPage where
  cssRows : String → List Elem
  links : List Anchor
  pageSource : String
  bodyText : String
  resubmitSource : String

structure DetailPage where
  pageSource : String
  bodyText : String
  tagElems : String → List Elem
  cssElems : String → List Elem

/-! ## `search_pharmacies` (lines 107-340) -/

def rowSelectors : List String := ["table tr", ".pharmacy-item", ".search-result", "tr", "li"]

def hrefPatterns : List String := ["nacs_select.php", "pharmacy", "detail", "profile"]

/-- The guarded append used by every accumulation loop of the source:
`if code not in acc and <q code>: acc.append(code)`. -/
def dedupAdd (q : String → Bool) (acc : List String) (c : String) : List String :=
  if c ∉ acc ∧ q c = true then acc ++ [c] else acc

def len5 (c : String) : Bool := c.length == 5

/-- ATTEMPT 1 (lines 153-177): scan the first 15 rows of each selector for
`[A-Z][A-Z0-9]{4}` tokens. -/
def attempt1 (page : SearchPage) : List String :=
  rowSelectors.foldl
    (fun acc sel =>
      ((page.cssRows sel).take 15).foldl
        (fun acc2 row => (findAllOds row.text).foldl (dedupAdd len5) acc2) acc)
    []

/-- `href.split("query=")[1].split("&")[0]` (lines 196, 283), meaningful only
when `"query=" in href`. -/
def extractQueryParam (href : String) : String :=
  match afterFirstL "query=".data href.data with
  | some rest => ⟨beforeFirstL "&".data (beforeFirstL "query=".data rest)⟩
  | none => ""

/-- One link of ATTEMPT 2 (lines 186-208): the query-parameter candidate and
the link-text tokens are only examined when the href matches a pattern. -/
def linkStep (acc : List String) (l : Anchor) : List String :=
  if hrefPatterns.any (fun p => containsL p.data l.href.data) = true then
    let acc1 :=
      if containsL "query=".data l.href.data = true then
        dedupAdd (fun c => !(c == "") && len5 c) acc (extractQueryParam l.href)
      else acc
    (findAllOds l.text).foldl (dedupAdd len5) acc1
  else acc

def attempt2 (acc : List String) (page : SearchPage) : List String :=
  page.links.foldl linkStep acc

/-- ATTEMPT 3 (lines 219-263): six context patterns over the page source.
The `pharmacy_names` findall of line 245 only feeds logging and is omitted. -/
def matchLabelOds (label : List Char) (cs : List Char) : Option (List Char × List Char) :=
  if label.isPrefixOf cs then
    match matchOds5 ((cs.drop label.length).dropWhile isColonWs) with
    | some (cap, rest) => some (cap, rest)
    | none => none
  else none

def matchParenOds : List Char → Option (List Char × List Char)
  | '(' :: t =>
    (match matchOds5 t with
     | some (cap, ')' :: r2) => some (cap, r2)
     | _ => none)
  | _ => none

def matchAngleOds : List Char → Option (List Char × List Char)
  | '>' :: t =>
    (match matchOds5 t with
     | some (cap, '<' :: r2) => some (cap, r2)
     | _ => none)
  | _ => none

def isQuoteC (c : Char) : Bool := c = '"' || c = '\''

def matchQuoteOds : List Char → Option (List Char × List Char)
  | q1 :: t =>
    if isQuoteC q1 then
      match matchOds5 t with
      | some (cap, q2 :: r2) => if isQuoteC q2 then some (cap, r2) else none
      | _ => none
    else none
  | _ => none

def matchBoundOds : List Char → Option (List Char × List Char)
  | c1 :: t =>
    if !isUpperA c1 then
      match matchOds5 t with
      | some (cap, c2 :: r2) => if !isAlnumU c2 then some (cap, r2) else none
      | _ => none
    else none
  | _ => none

/-- Leftmost non-overlapping scan for one capture pattern. -/
def scanAll (m : List Char → Option (List Char × List Char)) : Nat → List Char → List (List Char)
  | 0, _ => []
  | _, [] => []
  | fuel + 1, c :: t =>
    match m (c :: t) with
    | some (cap, rest) => cap :: scanAll m fuel rest
    | none => scanAll m fuel t

def odsPatterns : List (List Char → Option (List Char × List Char)) :=
  [matchLabelOds "ODS Code".data, matchLabelOds "Code".data, matchParenOds,
   matchAngleOds, matchQuoteOds, matchBoundOds]

/-- The raw candidate stream of ATTEMPT 3: all six source patterns, then the
word-bounded scan over the visible text. -/
def a3raw (page : SearchPage) : List String :=
  ((odsPatterns.flatMap (fun m => scanAll m page.pageSource.data.length page.pageSource.data))
    ++ findAllOdsBGo page.bodyText.data.length none page.bodyText.data).map
    (fun l => (⟨l⟩ : String))

def attempt3 (page : SearchPage) : List String :=
  (a3raw page).foldl
    (dedupAdd (fun c => len5 c && (pyMatchOds c && decide (c ∉ denylist)))) []

/-- ATTEMPT 4 (lines 268-292): first anchor of each of the first 10
`tr, li, .pharmacy-item` rows, accepted only for `nacs_select.php` hrefs. -/
def rowClickStep (acc : List String) (row : Elem) : List String :=
  match row.anchors with
  | [] => acc
  | a :: _ =>
    if (!(a.href == "") && containsL "nacs_select.php".data a.href.data) = true then
      if containsL "query=".data a.href.data = true then
        dedupAdd (fun c => !(c == "") && len5 c) acc (extractQueryParam a.href)
      else acc
    else acc

def attempt4 (acc : List String) (page : SearchPage) : List String :=
  ((page.cssRows "tr, li, .pharmacy-item").take 10).foldl rowClickStep acc

/-- ATTEMPT 5 (lines 297-324): blind `[A-Z][A-Z0-9]{4}` scan over the source
observed after the JavaScript re-submission. -/
def attempt5 (page : SearchPage) : List String :=
  (findAllOds page.resubmitSource).foldl
    (dedupAdd (fun c => len5 c && decide (c ∉ denylist))) []

/-- The body of `search_pharmacies` on a successfully rendered page: each
attempt returns `ids[:5]` as soon as it is non-empty; the accumulator of
ATTEMPT 1 flows into ATTEMPTS 2 and 4 exactly as the shared `pharmacy_ids`
list does in the source. -/
def searchPage (page : SearchPage) : List String :=
  let a1 := attempt1 page
  if a1 ≠ [] then a1.take 5
  else
    let a2 := attempt2 a1 page
    if a2 ≠ [] then a2.take 5
    else
      let a3 := attempt3 page
      if a3 ≠ [] then a3.take 5
      else
        let a4 := attempt4 a2 page
        if a4 ≠ [] then a4.take 5
        else
          let a5 := attempt5 page
          if a5 ≠ [] then a5.take 5 else []

/-- `search_pharmacies`: a browser/transport failure (`env = none`) is caught
by the outer handler (lines 333-335) and yields `[]`. -/
def search_pharmacies (postcode : String) (env : Option SearchPage) : List String :=
  match postcode, env with
  | _, none => []
  | _, some page => searchPage page

/-! ## `get_pharmacy_details` (lines 342-634) -/

structure PharmacyRecord where
  id : String
  name : String
  address : String
  postcode : String
  items : String
  forms : String
  cpcs : String
  pharmacy_first : String
  nms : String
  eps : String
deriving DecidableEq

/-- Heading tier (lines 382-394): first heading element whose stripped text is
non-empty and contains "pharmacy" case-insensitively. -/
def headingCandidate : List Elem → Option String
  | [] => none
  | e :: t =>
    let s := stripL e.text.data
    if !s.isEmpty && containsL "pharmacy".data (s.map toLowerC) then
      some ⟨stripParenTail s⟩
    else headingCandidate t

def headingName (page : DetailPage) : Option String :=
  match headingCandidate (page.tagElems "h1") with
  | some n => some n
  | none =>
    match headingCandidate (page.tagElems "h2") with
    | some n => some n
    | none => headingCandidate (page.tagElems "h3")

def nameClassSelectors : List String :=
  [".panel-title-custom", ".pharmacy-name", ".panel-title", ".title"]

/-- Class tier (lines 397-406): only the first element of each selector is
consulted, and an empty stripped text falls through to the next selector. -/
def classCandidate (es : List Elem) : Option String :=
  match es with
  | [] => none
  | e :: _ =>
    let s := stripL e.text.data
    if s.isEmpty then none else some ⟨stripParenTail s⟩

def classNameOf (page : DetailPage) : Option String :=
  nameClassSelectors.foldl
    (fun found sel =>
      match found with
      | some n => some n
      | none => classCandidate (page.cssElems sel))
    none

def extractName (pharmacy_id : String) (page : DetailPage) : String :=
  match headingName page with
  | some n => n
  | none =>
    match classNameOf page with
    | some n => n
    | none =>
      match nameSearch page.bodyText.data with
      | some g => ⟨g⟩
      | none => "Pharmacy " ++ pharmacy_id

/-- Lines 546-560: replace an id that is not ODS-shaped by the first
word-bounded, non-denylisted ODS token of the page text. -/
def properOds (pharmacy_id : String) (text : String) : String :=
  if pyMatchOds pharmacy_id then pharmacy_id
  else
    match (findAllOdsB text).find? (fun c => decide (c ∉ denylist) && pyMatchOds c) with
    | some c => c
    | none => pharmacy_id

def itemsLabels : List String := ["Items", "Items Dispensed"]

def formsLabels : List String := ["Forms", "Prescriptions"]

def cpcsLabels : List String := ["CPCS"]

def pfLabels : List String := ["Pharmacy First", "PF"]

def nmsLabels : List String := ["NMS"]

def epsLabels : List String := ["EPS", "EPS Takeup", "EPS Nominations"]

/-- `get_pharmacy_details`: `env = none` models a browser/transport failure
(caught at lines 627-629, returning `None`).  Rank captures are computed by
the regexes but never stored in the returned dict, so only the value group is
kept; the exception-only fallback tier (lines 578-625) is unreachable in this
pure model. -/
def get_pharmacy_details (pharmacy_id : String) (env : Option DetailPage) : Option PharmacyRecord :=
  match env with
  | none => none
  | some page =>
    let low := page.pageSource.data.map toLowerC
    if containsL "not found".data low = true ∨ containsL "no results".data low = true then
      none
    else
      let name := extractName pharmacy_id page
      let text := page.bodyText
      some
        { id := properOds pharmacy_id text
          name := name
          address := extractAddress name text
          postcode := (searchUkPc text).getD "N/A"
          items := (searchMetric itemsLabels text).elim "0" (fun r => r.1)
          forms := (searchMetric formsLabels text).elim "0" (fun r => r.1)
          cpcs := (searchMetric cpcsLabels text).elim "0" (fun r => r.1)
          pharmacy_first := (searchMetric pfLabels text).elim "0" (fun r => r.1)
          nms := (searchMetric nmsLabels text).elim "0" (fun r => r.1)
          eps := (searchEps epsLabels text).elim "0%" (fun r => r.1) }

/-! ## `handle_message` (lines 667-903)
The Telegram transport, status edits and admin notification are external
collaborators; what is modelled is the dispatch decision, the scraping calls
it performs (recorded in order in a call log) and the final user-facing
outcome.  Timeouts and the completion order of the concurrent detail fetches
are real-time behaviour outside this model: detail results are collected in
task-creation order, after which the Boots-first stable sort of line 848 is
applied. -/

inductive Call where
  | search (q : String)
  | detail (id : String)
deriving DecidableEq

inductive Outcome where
  | directFound (id : String) (rec : PharmacyRecord)
  | directNotFound (id : String)
  | emptyInput
  | formatError
  | nothingFound (postcode : String)
  | retrieveFailed
  | sentResults (postcode : String) (recs : List PharmacyRecord)
deriving DecidableEq

structure BotEnv where
  searchEnv : String → Option SearchPage
  detailEnv : String → Option DetailPage

def bootsKey (r : PharmacyRecord) : Nat :=
  if containsL "Boots".data r.name.data then 0 else 1

def recKeyLt (p q : PharmacyRecord) : Bool :=
  bootsKey p < bootsKey q || (bootsKey p == bootsKey q && decide (p.name < q.name))

/-- Stable insertion preserving the order of equal keys, so that the fold
below models Python's stable `sorted`. -/
def insSorted (x : PharmacyRecord) : List PharmacyRecord → List PharmacyRecord
  | [] => [x]
  | y :: t => if recKeyLt y x then y :: insSorted x t else x :: y :: t

def pySorted (l : List PharmacyRecord) : List PharmacyRecord :=
  l.foldr insSorted []

def handle_message (env : BotEnv) (text : String) : Outcome × List Call :=
  let input := pyStripS text
  if pyMatchOdsCI input = true ∧ pyUpperS input ∉ denylist then
    let pid := pyUpperS input
    match get_pharmacy_details pid (env.detailEnv pid) with
    | some rec => (.directFound pid rec, [.detail pid])
    | none => (.directNotFound pid, [.detail pid])
  else if input = "" then (.emptyInput, [])
  else
    match ukNormalize input with
    | none => (.formatError, [])
    | some pc =>
      let ids := search_pharmacies pc (env.searchEnv pc)
      if ids = [] then (.nothingFound pc, [.search pc])
      else
        let sel := ids.take 5
        let recs := sel.filterMap (fun i => get_pharmacy_details i (env.detailEnv i))
        let calls := Call.search pc :: sel.map Call.detail
        if recs = [] then (.retrieveFailed, calls)
        else (.sentResults pc (pySorted recs), calls)

/-! ## Derived notions used to state the claims -/

/-- Order-preserving first-seen deduplication. -/
def dedupStep (acc : List String) (c : String) : List String :=
  if c ∈ acc then acc else acc ++ [c]

def dedupFirst (l : List String) : List String := l.foldl dedupStep []

/-- The raw discovery stream of the structural-rows strategy (ATTEMPT 1), in
scan order, before deduplication. -/
def rawRows (page : SearchPage) : List String :=
  rowSelectors.flatMap
    (fun sel => ((page.cssRows sel).take 15).flatMap (fun row => findAllOds row.text))

/-- The raw discovery stream of the detail-links strategy (ATTEMPT 2): per
link, the query-parameter candidate (when the href qualifies), then the
link-text tokens. -/
def rawLinks (page : SearchPage) : List String :=
  page.links.flatMap
    (fun l =>
      if hrefPatterns.any (fun p => containsL p.data l.href.data) = true then
        (if containsL "query=".data l.href.data = true then
          (let c := extractQueryParam l.href
           if (!(c == "") && len5 c) = true then [c] else [])
         else []) ++ findAllOds l.text
      else [])

/-- Shape of the outward capture group `[A-Z]{1,2}[0-9][A-Z0-9]?`. -/
def outwardShape : List Char → Bool
  | [a, d] => isUpperA a && isDigitC d
  | [a, b, c] => isUpperA a && ((isDigitC b && isAlnumU c) || (isUpperA b && isDigitC c))
  | [a, b, c, e] => isUpperA a && isUpperA b && isDigitC c && isAlnumU e
  | _ => false

/-- Shape of the inward capture group `[0-9][A-Z]{2}`. -/
def inwardShape : List Char → Bool
  | [d, l1, l2] => isDigitC d && isUpperA l1 && isUpperA l2
  | _ => false

/-! ## Concrete environments and pages used by the witnesses -/

def trivialEnv : BotEnv := { searchEnv := fun _ => none, detailEnv := fun _ => none }

def emptySearchPage : SearchPage :=
  { cssRows := fun _ => [], links := [], pageSource := "", bodyText := "", resubmitSource := "" }

def emptyPageEnv : BotEnv :=
  { searchEnv := fun _ => some emptySearchPage, detailEnv := fun _ => none }

def rowsOnlyPage : SearchPage :=
  { cssRows := fun sel => if sel = "table tr" then [{ text := "Boots (FA123) row", anchors := [] }] else []
    links := []
    pageSource := ""
    bodyText := ""
    resubmitSource := "" }

def detailOkPage : DetailPage :=
  { pageSource := "<html><body><h1>Boots Pharmacy</h1>SW1A 1AA</body></html>"
    bodyText := "Boots Pharmacy\nSW1A 1AA"
    tagElems := fun t => if t = "h1" then [{ text := "Boots Pharmacy", anchors := [] }] else []
    cssElems := fun _ => [] }

def detailMissingPage : DetailPage :=
  { pageSource := "<html><body>No results for this query</body></html>"
    bodyText := "No results for this query"
    tagElems := fun _ => []
    cssElems := fun _ => [] }

/-! ## Generic lemmas about the accumulation loops -/

theorem foldl_preserve {α β : Type} (P : β → Prop) (f : β → α → β)
    (hf : ∀ b a, P b → P (f b a)) :
    ∀ (l : List α) (b : β), P b → P (l.foldl f b)
  | [], _, hb => hb
  | a :: t, b, hb => foldl_preserve P f hf t (f b a) (hf b a hb)

theorem dedupAdd_inv {q : String → Bool} (hq : ∀ s, q s = true → s.length = 5)
    {acc : List String} (h : acc.Nodup ∧ ∀ s ∈ acc, s.length = 5) (c : String) :
    (dedupAdd q acc c).Nodup ∧ ∀ s ∈ dedupAdd q acc c, s.length = 5 := by
  unfold dedupAdd
  split
  · next hcond =>
    refine ⟨?_, ?_⟩
    · refine List.nodup_append.mpr ⟨h.1, List.nodup_singleton c, ?_⟩
      intro a ha hb
      rw [List.mem_singleton] at hb
      exact hcond.1 (hb ▸ ha)
    · intro s hs
      rcases List.mem_append.mp hs with h1 | h2
      · exact h.2 s h1
      · rw [List.mem_singleton] at h2
        exact h2 ▸ hq c hcond.2
  · exact h

theorem len5_length {s : String} (h : len5 s = true) : s.length = 5 := by
  simpa [len5] using h

theorem len5_length_left {s : String} {b : Bool} (h : (len5 s && b) = true) : s.length = 5 := by
  rw [Bool.and_eq_true] at h
  exact len5_length h.1

theorem len5_length_right {s : String} {b : Bool} (h : (b && len5 s) = true) : s.length = 5 := by
  rw [Bool.and_eq_true] at h
  exact len5_length h.2

theorem linkStep_inv {acc : List String} (h : acc.Nodup ∧ ∀ s ∈ acc, s.length = 5)
    (l : Anchor) : (linkStep acc l).Nodup ∧ ∀ s ∈ linkStep acc l, s.length = 5 := by
  unfold linkStep
  split
  · show ((findAllOds l.text).foldl (dedupAdd len5)
      (if containsL "query=".data l.href.data = true then
        dedupAdd (fun c => !(c == "") && len5 c) acc (extractQueryParam l.href)
      else acc)).Nodup ∧ _
    refine foldl_preserve (fun (r : List String) => r.Nodup ∧ ∀ s ∈ r, s.length = 5) _
        (fun b a hb => dedupAdd_inv (fun s hs => len5_length hs) hb a) _ _ ?_
    split
    · exact dedupAdd_inv (fun s hs => len5_length_right hs) h _
    · exact h
  · exact h

theorem rowClickStep_inv {acc : List String} (h : acc.Nodup ∧ ∀ s ∈ acc, s.length = 5)
    (row : Elem) : (rowClickStep acc row).Nodup ∧ ∀ s ∈ rowClickStep acc row, s.length = 5 := by
  unfold rowClickStep
  split
  · exact h
  · split
    · split
      · exact dedupAdd_inv (fun s hs => len5_length_right hs) h _
      · exact h
    · exact h

theorem attempt1_inv (page : SearchPage) :
    (attempt1 page).Nodup ∧ ∀ s ∈ attempt1 page, s.length = 5 := by
  unfold attempt1
  refine foldl_preserve (fun (r : List String) => r.Nodup ∧ ∀ s ∈ r, s.length = 5) _
    (fun b sel hb => ?_) _ _ ⟨List.nodup_nil, by simp⟩
  refine foldl_preserve (fun (r : List String) => r.Nodup ∧ ∀ s ∈ r, s.length = 5) _
    (fun b2 row hb2 => ?_) _ _ hb
  exact foldl_preserve (fun (r : List String) => r.Nodup ∧ ∀ s ∈ r, s.length = 5) _
    (fun b3 c hb3 => dedupAdd_inv (fun s hs => len5_length hs) hb3 c) _ _ hb2

theorem attempt2_inv {acc : List String} (h : acc.Nodup ∧ ∀ s ∈ acc, s.length = 5)
    (page : SearchPage) :
    (attempt2 acc page).Nodup ∧ ∀ s ∈ attempt2 acc page, s.length = 5 :=
  foldl_preserve (fun (r : List String) => r.Nodup ∧ ∀ s ∈ r, s.length = 5) _
    (fun b l hb => linkStep_inv hb l) _ _ h

theorem attempt3_inv (page : SearchPage) :
    (attempt3 page).Nodup ∧ ∀ s ∈ attempt3 page, s.length = 5 := by
  unfold attempt3
  exact foldl_preserve (fun (r : List String) => r.Nodup ∧ ∀ s ∈ r, s.length = 5) _
    (fun b c hb => dedupAdd_inv (fun s hs => len5_length_left hs) hb c)
    _ _ ⟨List.nodup_nil, by simp⟩

theorem attempt4_inv {acc : List String} (h : acc.Nodup ∧ ∀ s ∈ acc, s.length = 5)
    (page : SearchPage) :
    (attempt4 acc page).Nodup ∧ ∀ s ∈ attempt4 acc page, s.length = 5 :=
  foldl_preserve (fun (r : List String) => r.Nodup ∧ ∀ s ∈ r, s.length = 5) _
    (fun b row hb => rowClickStep_inv hb row) _ _ h

theorem attempt5_inv (page : SearchPage) :
    (attempt5 page).Nodup ∧ ∀ s ∈ attempt5 page, s.length = 5 := by
  unfold attempt5
  exact foldl_preserve (fun (r : List String) => r.Nodup ∧ ∀ s ∈ r, s.length = 5) _
    (fun b c hb => dedupAdd_inv (fun s hs => len5_length_left hs) hb c)
    _ _ ⟨List.nodup_nil, by simp⟩

theorem take5_inv {l : List String} (h : l.Nodup ∧ ∀ s ∈ l, s.length = 5) :
    (l.take 5).length ≤ 5 ∧ (l.take 5).Nodup ∧ ∀ s ∈ l.take 5, s.length = 5 := by
  refine ⟨?_, (List.take_sublist 5 l).nodup h.1, fun s hs => h.2 s (List.mem_of_mem_take hs)⟩
  rw [List.length_take]
  exact min_le_left _ _

/-- The branch structure of `searchPage`, spelled out. -/
theorem searchPage_eq (page : SearchPage) :
    searchPage page =
      (if attempt1 page ≠ [] then (attempt1 page).take 5
       else if attempt2 (attempt1 page) page ≠ [] then (attempt2 (attempt1 page) page).take 5
       else if attempt3 page ≠ [] then (attempt3 page).take 5
       else if attempt4 (attempt2 (attempt1 page) page) page ≠ [] then
         (attempt4 (attempt2 (attempt1 page) page) page).take 5
       else if attempt5 page ≠ [] then (attempt5 page).take 5
       else []) := rfl

/-- C9: every list returned by `search_pharmacies`, for any environment, has
at most 5 elements, no duplicates, and only 5-character identifiers. -/
theorem search_pharmacies_invariant (postcode : String) (env : Option SearchPage) :
    (search_pharmacies postcode env).length ≤ 5 ∧
    (search_pharmacies postcode env).Nodup ∧
    ∀ s ∈ search_pharmacies postcode env, s.length = 5 := by
  match env with
  | none => simp [search_pharmacies]
  | some page =>
    show (searchPage page).length ≤ 5 ∧ (searchPage page).Nodup ∧
      ∀ s ∈ searchPage page, s.length = 5
    rw [searchPage_eq]
    split
    · exact take5_inv (attempt1_inv page)
    · split
      · exact take5_inv (attempt2_inv (attempt1_inv page) page)
      · split
        · exact take5_inv (attempt3_inv page)
        · split
          · exact take5_inv (attempt4_inv (attempt2_inv (attempt1_inv page) page) page)
          · split
            · exact take5_inv (attempt5_inv page)
            · simp

/-! ## C4: negative markers abort detail extraction -/

/-- C4: for every rendered detail page whose (lowercased) content contains a
negative marker ("not found" or "no results"), `get_pharmacy_details` returns
`none` without any field extraction; in particular the outcome is distinct
from any non-null defaulted record. -/
theorem details_negative_marker (pharmacy_id : String) (page : DetailPage)
    (h : containsL "not found".data (page.pageSource.data.map toLowerC) = true ∨
         containsL "no results".data (page.pageSource.data.map toLowerC) = true) :
    get_pharmacy_details pharmacy_id (some page) = none := by
  simp only [get_pharmacy_details]
  split
  · rfl
  · next hn => exact absurd h hn

theorem details_negative_marker_witness :
    get_pharmacy_details "FJ144" (some detailMissingPage) = none :=
  details_negative_marker "FJ144" detailMissingPage (Or.inr (by decide))

/-! ## C5: the identifier validator and the trailing-newline quirk -/

theorem pyMatchOds_mk_of_shape : ∀ {cs : List Char}, odsShapeL cs = true →
    pyMatchOds ⟨cs⟩ = true := by
  intro cs h
  match cs with
  | [a, b, c, d, e] => simp [pyMatchOds, h]
  | [] => simp [odsShapeL] at h
  | [a] => simp [odsShapeL] at h
  | [a, b] => simp [odsShapeL] at h
  | [a, b, c] => simp [odsShapeL] at h
  | [a, b, c, d] => simp [odsShapeL] at h
  | a :: b :: c :: d :: e :: f :: r => simp [odsShapeL] at h

theorem pyMatchOds_mk_newline_of_shape : ∀ {cs : List Char}, odsShapeL cs = true →
    pyMatchOds ⟨cs ++ ['\n']⟩ = true := by
  intro cs h
  match cs with
  | [a, b, c, d, e] => simp [pyMatchOds, h]
  | [] => simp [odsShapeL] at h
  | [a] => simp [odsShapeL] at h
  | [a, b] => simp [odsShapeL] at h
  | [a, b, c] => simp [odsShapeL] at h
  | [a, b, c, d] => simp [odsShapeL] at h
  | a :: b :: c :: d :: e :: f :: r => simp [odsShapeL] at h

theorem pyMatchOds_true_cases {s : String} (h : pyMatchOds s = true) :
    odsShapeL s.data = true ∨ ∃ t, s.data = t ++ ['\n'] ∧ odsShapeL t = true := by
  unfold pyMatchOds at h
  split at h
  · next a b c d e rest heq =>
    simp only [Bool.and_eq_true, decide_eq_true_eq] at h
    rcases h.2 with hr | hr
    · left
      rw [heq, hr]
      exact hr ▸ h.1
    · right
      exact ⟨[a, b, c, d, e], by rw [heq, hr]; rfl, h.1⟩
  · exact absurd h (by simp)

/-- C5 counterexample: the claim requires a `false` result for every string of
the wrong length, but Python's `$` matches before a trailing newline, so the
six-character string "FA123\n" is accepted by `is_valid_ods_code`. -/
theorem is_valid_ods_code_newline_counterexample :
    is_valid_ods_code "FA123\n" = true ∧ ("FA123\n" : String).length = 6 := by decide

/-- C5 (amended): shape-matching non-denylisted strings are accepted,
denylisted tokens are rejected, and wrong-shape strings are rejected except
for the strings consisting of a shaped code followed by one newline, which are
accepted because `re.match(..., '$')` also matches before a trailing
newline. -/
theorem is_valid_ods_code_amended :
    (∀ s : String, odsShapeL s.data = true → s ∉ denylist → is_valid_ods_code s = true) ∧
    (∀ s : String, s ∈ denylist → is_valid_ods_code s = false) ∧
    (∀ s : String, odsShapeL s.data = false →
      (∀ t : List Char, s.data = t ++ ['\n'] → odsShapeL t = false) →
      is_valid_ods_code s = false) ∧
    (∀ t : List Char, odsShapeL t = true → (⟨t ++ ['\n']⟩ : String) ∉ denylist →
      is_valid_ods_code ⟨t ++ ['\n']⟩ = true) := by
  refine ⟨fun s h1 h2 => ?_, fun s h => ?_, fun s h1 h2 => ?_, fun t h1 h2 => ?_⟩
  · unfold is_valid_ods_code
    rw [show pyMatchOds s = true from @pyMatchOds_mk_of_shape s.data h1,
      decide_eq_true h2]
    rfl
  · unfold is_valid_ods_code
    rw [decide_eq_false (not_not_intro h)]
    exact Bool.and_false _
  · unfold is_valid_ods_code
    have : pyMatchOds s = false := by
      cases hv : pyMatchOds s with
      | false => rfl
      | true =>
        rcases pyMatchOds_true_cases hv with hc | ⟨t, ht, hts⟩
        · exact absurd hc (by rw [h1]; exact Bool.false_ne_true)
        · exact absurd hts (by rw [h2 t ht]; exact Bool.false_ne_true)
    rw [this]
    rfl
  · unfold is_valid_ods_code
    rw [pyMatchOds_mk_newline_of_shape h1, decide_eq_true h2]
    rfl

theorem is_valid_ods_code_amended_witness :
    is_valid_ods_code "FJ144" = true ∧ is_valid_ods_code "WIDTH" = false ∧
    is_valid_ods_code "FA12" = false ∧
    is_valid_ods_code ⟨"CLASS".data ++ ['\n']⟩ = true := by
  refine ⟨is_valid_ods_code_amended.1 "FJ144" (by decide) (by decide),
    is_valid_ods_code_amended.2.1 "WIDTH" (by decide),
    is_valid_ods_code_amended.2.2.1 "FA12" (by decide) ?_,
    is_valid_ods_code_amended.2.2.2 "CLASS".data (by decide) (by decide)⟩
  intro t ht
  have hlast := congrArg List.getLast? ht
  simp [List.getLast?_concat] at hlast

/-! ## Character-class lemmas for the direct-code entry point -/

theorem isLowerA_false_of_upper {c : Char} (h : isUpperA c = true) : isLowerA c = false := by
  cases hl : isLowerA c with
  | false => rfl
  | true =>
    exfalso
    simp only [isUpperA, isLowerA, Bool.and_eq_true, decide_eq_true_eq] at h hl
    omega

theorem isLowerA_false_of_digit {c : Char} (h : isDigitC c = true) : isLowerA c = false := by
  cases hl : isLowerA c with
  | false => rfl
  | true =>
    exfalso
    simp only [isDigitC, isLowerA, Bool.and_eq_true, decide_eq_true_eq] at h hl
    omega

theorem toUpperC_fix {c : Char} (h : isUpperA c = true ∨ isDigitC c = true) : toUpperC c = c := by
  rcases h with h | h
  · simp [toUpperC, isLowerA_false_of_upper h]
  · simp [toUpperC, isLowerA_false_of_digit h]

theorem toUpperC_fix_alnum {c : Char} (h : isAlnumU c = true) : toUpperC c = c := by
  rw [isAlnumU, Bool.or_eq_true] at h
  exact toUpperC_fix h

theorem upper_map_of_shape : ∀ {cs : List Char}, odsShapeL cs = true →
    cs.map toUpperC = cs := by
  intro cs h
  match cs with
  | [a, b, c, d, e] =>
    simp only [odsShapeL, Bool.and_eq_true] at h
    obtain ⟨⟨⟨⟨h1, h2⟩, h3⟩, h4⟩, h5⟩ := h
    simp [toUpperC_fix (Or.inl h1), toUpperC_fix_alnum h2, toUpperC_fix_alnum h3,
      toUpperC_fix_alnum h4, toUpperC_fix_alnum h5]
  | [] => simp [odsShapeL] at h
  | [a] => simp [odsShapeL] at h
  | [a, b] => simp [odsShapeL] at h
  | [a, b, c] => simp [odsShapeL] at h
  | [a, b, c, d] => simp [odsShapeL] at h
  | a :: b :: c :: d :: e :: f :: r => simp [odsShapeL] at h

theorem isAlphaC_of_upper {c : Char} (h : isUpperA c = true) : isAlphaC c = true := by
  simp [isAlphaC, h]

theorem alphaOrDigit_of_alnum {c : Char} (h : isAlnumU c = true) :
    (isAlphaC c || isDigitC c) = true := by
  rw [isAlnumU, Bool.or_eq_true] at h
  rcases h with h | h
  · simp [isAlphaC, h]
  · simp [h]

theorem pyMatchOdsCI_of_shape : ∀ {cs : List Char}, odsShapeL cs = true →
    pyMatchOdsCI ⟨cs⟩ = true := by
  intro cs h
  match cs with
  | [a, b, c, d, e] =>
    simp only [odsShapeL, Bool.and_eq_true] at h
    obtain ⟨⟨⟨⟨h1, h2⟩, h3⟩, h4⟩, h5⟩ := h
    simp [pyMatchOdsCI, isAlphaC_of_upper h1, alphaOrDigit_of_alnum h2,
      alphaOrDigit_of_alnum h3, alphaOrDigit_of_alnum h4, alphaOrDigit_of_alnum h5]
  | [] => simp [odsShapeL] at h
  | [a] => simp [odsShapeL] at h
  | [a, b] => simp [odsShapeL] at h
  | [a, b, c] => simp [odsShapeL] at h
  | [a, b, c, d] => simp [odsShapeL] at h
  | a :: b :: c :: d :: e :: f :: r => simp [odsShapeL] at h

/-! ## C7: identifier-shaped input skips the search entirely -/

/-- C7: for every user input whose stripped form matches the identifier shape
and is not denylisted, `handle_message` performs no search call and exactly
one detail call for that identifier, producing at most one record. -/
theorem direct_code_skips_search (env : BotEnv) (text : String)
    (h1 : odsShapeL (pyStripS text).data = true)
    (h2 : pyStripS text ∉ denylist) :
    (handle_message env text).2 = [Call.detail (pyStripS text)] ∧
    ((handle_message env text).1 = Outcome.directNotFound (pyStripS text) ∨
     ∃ rec, (handle_message env text).1 = Outcome.directFound (pyStripS text) rec) := by
  have hupper : pyUpperS (pyStripS text) = pyStripS text := by
    show (⟨(pyStripS text).data.map toUpperC⟩ : String) = pyStripS text
    rw [upper_map_of_shape h1]
  have hci : pyMatchOdsCI (pyStripS text) = true := pyMatchOdsCI_of_shape h1
  simp only [handle_message]
  rw [if_pos ⟨hci, by rw [hupper]; exact h2⟩, hupper]
  cases hgd : get_pharmacy_details (pyStripS text) (env.detailEnv (pyStripS text)) with
  | none => exact ⟨rfl, Or.inl rfl⟩
  | some rec => exact ⟨rfl, Or.inr ⟨rec, rfl⟩⟩

theorem direct_code_skips_search_witness :
    (handle_message trivialEnv "FJ144").2 = [Call.detail (pyStripS "FJ144")] ∧
    ((handle_message trivialEnv "FJ144").1 = Outcome.directNotFound (pyStripS "FJ144") ∨
     ∃ rec, (handle_message trivialEnv "FJ144").1 =
       Outcome.directFound (pyStripS "FJ144") rec) :=
  direct_code_skips_search trivialEnv "FJ144" (by decide) (by decide)

/-! ## C10: the direct entry point is case-insensitive, page matching is not -/

theorem matchOds5_spec : ∀ {cs cap rest : List Char}, matchOds5 cs = some (cap, rest) →
    odsShapeL cap = true ∧ cs = cap ++ rest := by
  intro cs cap rest h
  unfold matchOds5 at h
  split at h
  · next a b c d e r =>
    split at h
    · next hs =>
      simp only [Option.some.injEq, Prod.mk.injEq] at h
      exact ⟨h.1 ▸ hs, by rw [← h.1, ← h.2]; rfl⟩
    · exact absurd h (by simp)
  · exact absurd h (by simp)

theorem findAllOdsGo_shape : ∀ (fuel : Nat) (cs l : List Char),
    l ∈ findAllOdsGo fuel cs → odsShapeL l = true := by
  intro fuel
  induction fuel with
  | zero => intro cs l h; simp [findAllOdsGo] at h
  | succ n ih =>
    intro cs l h
    match cs with
    | [] => simp [findAllOdsGo] at h
    | c :: t =>
      rw [findAllOdsGo] at h
      cases hm : matchOds5 (c :: t) with
      | none =>
        rw [hm] at h
        exact ih t l h
      | some pr =>
        obtain ⟨cap, rest⟩ := pr
        rw [hm] at h
        rcases List.mem_cons.mp h with hl | hl
        · exact hl ▸ (matchOds5_spec hm).1
        · exact ih rest l hl

/-- C10: for every input matching the identifier shape ignoring case, with
non-denylisted uppercase form, `handle_message` uppercases the input and does
the direct detail lookup with the uppercased code; meanwhile, the
`[A-Z][A-Z0-9]{4}` scanner used against rendered page text only ever yields
uppercase-shaped tokens, i.e. page matching is case-sensitive. -/
theorem direct_code_case_insensitive (env : BotEnv) (text : String)
    (h1 : pyMatchOdsCI (pyStripS text) = true)
    (h2 : pyUpperS (pyStripS text) ∉ denylist) :
    ((handle_message env text).2 = [Call.detail (pyUpperS (pyStripS text))] ∧
     ((handle_message env text).1 = Outcome.directNotFound (pyUpperS (pyStripS text)) ∨
      ∃ rec, (handle_message env text).1 =
        Outcome.directFound (pyUpperS (pyStripS text)) rec)) ∧
    (∀ (fuel : Nat) (cs l : List Char), l ∈ findAllOdsGo fuel cs → odsShapeL l = true) := by
  refine ⟨?_, findAllOdsGo_shape⟩
  simp only [handle_message]
  rw [if_pos ⟨h1, h2⟩]
  cases hgd : get_pharmacy_details (pyUpperS (pyStripS text))
      (env.detailEnv (pyUpperS (pyStripS text))) with
  | none => exact ⟨rfl, Or.inl rfl⟩
  | some rec => exact ⟨rfl, Or.inr ⟨rec, rfl⟩⟩

theorem direct_code_case_insensitive_witness :
    ((handle_message trivialEnv "fj144").2 = [Call.detail (pyUpperS (pyStripS "fj144"))] ∧
     ((handle_message trivialEnv "fj144").1 =
        Outcome.directNotFound (pyUpperS (pyStripS "fj144")) ∨
      ∃ rec, (handle_message trivialEnv "fj144").1 =
        Outcome.directFound (pyUpperS (pyStripS "fj144")) rec)) ∧
    (∀ (fuel : Nat) (cs l : List Char), l ∈ findAllOdsGo fuel cs → odsShapeL l = true) :=
  direct_code_case_insensitive trivialEnv "fj144" (by decide) (by decide)

/-! ## C3: metric labels absent means every metric defaults -/

theorem containsL_of_pref {pat cs : List Char} (h : pat.isPrefixOf cs = true) :
    containsL pat cs = true := by
  cases cs with
  | nil =>
    rw [containsL]
    cases pat with
    | nil => rfl
    | cons p t => simp [List.isPrefixOf] at h
  | cons c t => rw [containsL, h, Bool.true_or]

theorem containsL_cons_false {pat : List Char} {c : Char} {t : List Char}
    (h : containsL pat (c :: t) = false) :
    pat.isPrefixOf (c :: t) = false ∧ containsL pat t = false := by
  rw [containsL, Bool.or_eq_false_iff] at h
  exact h

theorem metricMatchAt_label : ∀ {labels : List (List Char)} {cs : List Char} {r},
    metricMatchAt labels cs = some r → ∃ lab ∈ labels, lab.isPrefixOf cs = true := by
  intro labels
  induction labels with
  | nil => intro cs r h; simp [metricMatchAt] at h
  | cons lab rest ih =>
    intro cs r h
    rw [metricMatchAt] at h
    by_cases hp : lab.isPrefixOf cs = true
    · exact ⟨lab, List.mem_cons_self lab rest, hp⟩
    · rw [if_neg hp] at h
      obtain ⟨l, hl, hlp⟩ := ih h
      exact ⟨l, List.mem_cons_of_mem lab hl, hlp⟩

theorem epsMatchAt_label : ∀ {labels : List (List Char)} {cs : List Char} {r},
    epsMatchAt labels cs = some r → ∃ lab ∈ labels, lab.isPrefixOf cs = true := by
  intro labels
  induction labels with
  | nil => intro cs r h; simp [epsMatchAt] at h
  | cons lab rest ih =>
    intro cs r h
    rw [epsMatchAt] at h
    by_cases hp : lab.isPrefixOf cs = true
    · exact ⟨lab, List.mem_cons_self lab rest, hp⟩
    · rw [if_neg hp] at h
      obtain ⟨l, hl, hlp⟩ := ih h
      exact ⟨l, List.mem_cons_of_mem lab hl, hlp⟩

theorem searchMetricGo_none (labels : List (List Char)) : ∀ (fuel : Nat) (cs : List Char),
    (∀ lab ∈ labels, containsL lab cs = false) → searchMetricGo labels fuel cs = none := by
  intro fuel
  induction fuel with
  | zero => intro cs _; rfl
  | succ n ih =>
    intro cs hno
    simp only [searchMetricGo]
    have hm : metricMatchAt labels cs = none := by
      cases hm : metricMatchAt labels cs with
      | none => rfl
      | some r =>
        obtain ⟨lab, hl, hp⟩ := metricMatchAt_label hm
        exact absurd (containsL_of_pref hp) (by rw [hno lab hl]; exact Bool.false_ne_true)
    rw [hm]
    cases cs with
    | nil => rfl
    | cons c t => exact ih t (fun lab hl => (containsL_cons_false (hno lab hl)).2)

theorem searchEpsGo_none (labels : List (List Char)) : ∀ (fuel : Nat) (cs : List Char),
    (∀ lab ∈ labels, containsL lab cs = false) → searchEpsGo labels fuel cs = none := by
  intro fuel
  induction fuel with
  | zero => intro cs _; rfl
  | succ n ih =>
    intro cs hno
    simp only [searchEpsGo]
    have hm : epsMatchAt labels cs = none := by
      cases hm : epsMatchAt labels cs with
      | none => rfl
      | some r =>
        obtain ⟨lab, hl, hp⟩ := epsMatchAt_label hm
        exact absurd (containsL_of_pref hp) (by rw [hno lab hl]; exact Bool.false_ne_true)
    rw [hm]
    cases cs with
    | nil => rfl
    | cons c t => exact ih t (fun lab hl => (containsL_cons_false (hno lab hl)).2)

theorem searchMetric_none {labels : List String} {s : String}
    (hno : ∀ lab ∈ labels, containsL lab.data s.data = false) :
    searchMetric labels s = none := by
  unfold searchMetric
  apply searchMetricGo_none
  intro lab hl
  obtain ⟨l, hl1, hl2⟩ := List.mem_map.mp hl
  exact hl2 ▸ hno l hl1

theorem searchEps_none {labels : List String} {s : String}
    (hno : ∀ lab ∈ labels, containsL lab.data s.data = false) :
    searchEps labels s = none := by
  unfold searchEps
  apply searchEpsGo_none
  intro lab hl
  obtain ⟨l, hl1, hl2⟩ := List.mem_map.mp hl
  exact hl2 ▸ hno l hl1

def allMetricLabels : List String :=
  ["Items", "Items Dispensed", "Forms", "Prescriptions", "CPCS",
   "Pharmacy First", "PF", "NMS", "EPS", "EPS Takeup", "EPS Nominations"]

/-- C3: on a detail page with no negative markers and none of the metric
label synonyms in its visible text, but with an extractable pharmacy name
(heading tier) and a postcode-shaped string, `get_pharmacy_details` returns a
non-null record whose metric fields all hold their neutral defaults and whose
name and postcode are still extracted. -/
theorem details_default_metrics (pharmacy_id : String) (page : DetailPage) (nm pcv : String)
    (hneg1 : containsL "not found".data (page.pageSource.data.map toLowerC) = false)
    (hneg2 : containsL "no results".data (page.pageSource.data.map toLowerC) = false)
    (hlabels : ∀ lab ∈ allMetricLabels, containsL lab.data page.bodyText.data = false)
    (hname : headingName page = some nm)
    (hpc : searchUkPc page.bodyText = some pcv) :
    get_pharmacy_details pharmacy_id (some page) =
      some { id := properOds pharmacy_id page.bodyText
             name := nm
             address := extractAddress nm page.bodyText
             postcode := pcv
             items := "0"
             forms := "0"
             cpcs := "0"
             pharmacy_first := "0"
             nms := "0"
             eps := "0%" } := by
  have hsub : ∀ (ls : List String), (∀ l ∈ ls, l ∈ allMetricLabels) →
      ∀ lab ∈ ls, containsL lab.data page.bodyText.data = false :=
    fun ls hls lab hl => hlabels lab (hls lab hl)
  have hitems : searchMetric itemsLabels page.bodyText = none :=
    searchMetric_none (hsub itemsLabels (by decide))
  have hforms : searchMetric formsLabels page.bodyText = none :=
    searchMetric_none (hsub formsLabels (by decide))
  have hcpcs : searchMetric cpcsLabels page.bodyText = none :=
    searchMetric_none (hsub cpcsLabels (by decide))
  have hpf : searchMetric pfLabels page.bodyText = none :=
    searchMetric_none (hsub pfLabels (by decide))
  have hnms : searchMetric nmsLabels page.bodyText = none :=
    searchMetric_none (hsub nmsLabels (by decide))
  have heps : searchEps epsLabels page.bodyText = none :=
    searchEps_none (hsub epsLabels (by decide))
  have hname' : extractName pharmacy_id page = nm := by
    unfold extractName
    rw [hname]
  simp only [get_pharmacy_details]
  rw [if_neg (by simp [hneg1, hneg2])]
  rw [hitems, hforms, hcpcs, hpf, hnms, heps, hpc, hname']
  rfl

theorem details_default_metrics_witness :
    get_pharmacy_details "FJ144" (some detailOkPage) =
      some { id := "FJ144"
             name := "Boots Pharmacy"
             address := "Address not found"
             postcode := "SW1A 1AA"
             items := "0"
             forms := "0"
             cpcs := "0"
             pharmacy_first := "0"
             nms := "0"
             eps := "0%" } := by
  rw [details_default_metrics "FJ144" detailOkPage "Boots Pharmacy" "SW1A 1AA"
    (by decide) (by decide) (by decide) (by decide) (by decide)]
  decide

/-! ## C2: the winning strategy's list is a capped, order-preserving dedup -/

theorem odsShapeL_length : ∀ {l : List Char}, odsShapeL l = true → l.length = 5 := by
  intro l h
  match l with
  | [a, b, c, d, e] => rfl
  | [] => simp [odsShapeL] at h
  | [a] => simp [odsShapeL] at h
  | [a, b] => simp [odsShapeL] at h
  | [a, b, c] => simp [odsShapeL] at h
  | [a, b, c, d] => simp [odsShapeL] at h
  | a :: b :: c :: d :: e :: f :: r => simp [odsShapeL] at h

theorem findAllOds_len5 {s : String} : ∀ c ∈ findAllOds s, len5 c = true := by
  intro c hc
  obtain ⟨l, hl, rfl⟩ := List.mem_map.mp hc
  have hlen := odsShapeL_length (findAllOdsGo_shape _ _ _ hl)
  simp [len5, String.length, hlen]

theorem dedupAdd_eq_dedupStep {q : String → Bool} {c : String} (h : q c = true)
    (acc : List String) : dedupAdd q acc c = dedupStep acc c := by
  unfold dedupAdd dedupStep
  by_cases hm : c ∈ acc
  · rw [if_neg (by simp [hm]), if_pos hm]
  · rw [if_pos ⟨hm, h⟩, if_neg hm]

theorem dedupAdd_id {q : String → Bool} {c : String} (h : ¬q c = true)
    (acc : List String) : dedupAdd q acc c = acc := by
  unfold dedupAdd
  rw [if_neg (by simp [h])]

theorem foldl_dedupAdd_all {q : String → Bool} (l : List String)
    (hall : ∀ c ∈ l, q c = true) (acc : List String) :
    l.foldl (dedupAdd q) acc = l.foldl dedupStep acc :=
  List.foldl_ext _ _ acc (fun a b hb => dedupAdd_eq_dedupStep (hall b hb) a)

theorem foldl_flatMap {α β γ : Type} (g : α → List β) (f : γ → β → γ) :
    ∀ (l : List α) (a : γ), (l.flatMap g).foldl f a = l.foldl (fun acc x => (g x).foldl f acc) a
  | [], _ => rfl
  | x :: t, a => by
    rw [List.flatMap_cons, List.foldl_append, List.foldl_cons, foldl_flatMap g f t]

theorem attempt1_eq (page : SearchPage) : attempt1 page = dedupFirst (rawRows page) := by
  unfold attempt1 dedupFirst rawRows
  rw [foldl_flatMap]
  apply List.foldl_ext
  intro acc sel _
  rw [foldl_flatMap]
  apply List.foldl_ext
  intro acc2 row _
  exact foldl_dedupAdd_all _ findAllOds_len5 acc2

theorem attempt2_nil_eq (page : SearchPage) :
    attempt2 [] page = dedupFirst (rawLinks page) := by
  unfold attempt2 dedupFirst rawLinks
  rw [foldl_flatMap]
  apply List.foldl_ext
  intro acc l _
  unfold linkStep
  by_cases hp : hrefPatterns.any (fun p => containsL p.data l.href.data) = true
  · rw [if_pos hp, if_pos hp, List.foldl_append]
    have hqeq : (if containsL "query=".data l.href.data = true then
          dedupAdd (fun c => !(c == "") && len5 c) acc (extractQueryParam l.href)
        else acc)
        = (if containsL "query=".data l.href.data = true then
            (let c := extractQueryParam l.href
             if (!(c == "") && len5 c) = true then [c] else [])
          else []).foldl dedupStep acc := by
      by_cases hq : containsL "query=".data l.href.data = true
      · rw [if_pos hq, if_pos hq]
        show dedupAdd _ acc _ =
          (if (!(extractQueryParam l.href == "") && len5 (extractQueryParam l.href)) = true
           then [extractQueryParam l.href] else []).foldl dedupStep acc
        by_cases hc : (!(extractQueryParam l.href == "") && len5 (extractQueryParam l.href)) = true
        · rw [if_pos hc, dedupAdd_eq_dedupStep hc]
          rfl
        · rw [if_neg hc, dedupAdd_id hc]
          rfl
      · rw [if_neg hq, if_neg hq]
        rfl
    rw [hqeq]
    exact foldl_dedupAdd_all _ findAllOds_len5 _
  · rw [if_neg hp, if_neg hp]
    rfl

theorem foldl_dedupStep_decomp : ∀ (l acc : List String),
    ∃ d, l.foldl dedupStep acc = acc ++ d ∧ d.Sublist l := by
  intro l
  induction l with
  | nil => exact fun acc => ⟨[], by simp, List.nil_sublist []⟩
  | cons c t ih =>
    intro acc
    by_cases hc : c ∈ acc
    · obtain ⟨d, hd, hds⟩ := ih acc
      refine ⟨d, ?_, hds.cons c⟩
      rw [List.foldl_cons]
      show t.foldl dedupStep (dedupStep acc c) = _
      rw [dedupStep, if_pos hc, hd]
    · obtain ⟨d, hd, hds⟩ := ih (acc ++ [c])
      refine ⟨c :: d, ?_, hds.cons₂ c⟩
      rw [List.foldl_cons]
      show t.foldl dedupStep (dedupStep acc c) = _
      rw [dedupStep, if_neg hc, hd, List.append_assoc]
      rfl

theorem dedupFirst_sublist (l : List String) : (dedupFirst l).Sublist l := by
  obtain ⟨d, hd, hds⟩ := foldl_dedupStep_decomp l []
  rw [dedupFirst, hd]
  simpa using hds

theorem dedupFirst_ne_nil {l : List String} (h : l ≠ []) : dedupFirst l ≠ [] := by
  match l with
  | [] => exact absurd rfl h
  | c :: t =>
    unfold dedupFirst
    rw [List.foldl_cons]
    show t.foldl dedupStep (dedupStep [] c) ≠ []
    rw [show dedupStep [] c = [c] by rw [dedupStep, if_neg (List.not_mem_nil c)]; rfl]
    obtain ⟨d, hd, _⟩ := foldl_dedupStep_decomp t [c]
    rw [hd]
    simp

/-- C2: whenever identifier-shaped tokens are discovered in the row texts
and/or in the anchors (so that the rows strategy or the links strategy wins),
the returned list is the first-seen-order deduplication of the winning
strategy's raw discovery stream, truncated to 5, without duplicates, and is a
sublist (hence order-preserving) of that stream. -/
theorem search_dedup_order_cap (page : SearchPage)
    (h : rawRows page ≠ [] ∨ rawLinks page ≠ []) :
    (searchPage page).Nodup ∧ (searchPage page).length ≤ 5 ∧
    (rawRows page ≠ [] →
      searchPage page = (dedupFirst (rawRows page)).take 5 ∧
      (searchPage page).Sublist (rawRows page)) ∧
    (rawRows page = [] →
      searchPage page = (dedupFirst (rawLinks page)).take 5 ∧
      (searchPage page).Sublist (rawLinks page)) := by
  have inv := search_pharmacies_invariant "" (some page)
  refine ⟨inv.2.1, inv.1, fun hr => ?_, fun hr => ?_⟩
  · have ha1 : attempt1 page ≠ [] := by
      rw [attempt1_eq]
      exact dedupFirst_ne_nil hr
    have he : searchPage page = (attempt1 page).take 5 := by
      rw [searchPage_eq, if_pos ha1]
    rw [he, attempt1_eq]
    exact ⟨rfl, (List.take_sublist _ _).trans (dedupFirst_sublist _)⟩
  · rcases h with hcontr | hlinks
    · exact absurd hr hcontr
    have ha1 : attempt1 page = [] := by
      rw [attempt1_eq, hr]
      rfl
    have ha2 : attempt2 (attempt1 page) page ≠ [] := by
      rw [ha1, attempt2_nil_eq]
      exact dedupFirst_ne_nil hlinks
    have he : searchPage page = (attempt2 (attempt1 page) page).take 5 := by
      rw [searchPage_eq, if_neg (not_not_intro ha1), if_pos ha2]
    rw [he, ha1, attempt2_nil_eq]
    exact ⟨rfl, (List.take_sublist _ _).trans (dedupFirst_sublist _)⟩

theorem search_dedup_order_cap_witness :
    rawRows rowsOnlyPage ≠ [] ∧ searchPage rowsOnlyPage = ["FA123"] ∧
    (searchPage rowsOnlyPage).Nodup ∧ (searchPage rowsOnlyPage).length ≤ 5 := by
  have h := search_dedup_order_cap rowsOnlyPage (Or.inl (by decide))
  refine ⟨by decide, ?_, h.1, h.2.1⟩
  rw [(h.2.2.1 (by decide)).1]
  decide

/-! ## C1: strategies are tried in order and the first non-empty one wins -/

theorem dedupAdd_grows (q : String → Bool) (acc : List String) (c : String) :
    acc <+: dedupAdd q acc c := by
  unfold dedupAdd
  split
  · exact ⟨[c], rfl⟩
  · exact List.prefix_refl acc

theorem foldl_grows {α : Type} (f : List String → α → List String)
    (hf : ∀ acc x, acc <+: f acc x) :
    ∀ (l : List α) (acc : List String), acc <+: l.foldl f acc
  | [], acc => List.prefix_refl acc
  | x :: t, acc => (hf acc x).trans (foldl_grows f hf t (f acc x))

theorem linkStep_grows (acc : List String) (l : Anchor) : acc <+: linkStep acc l := by
  unfold linkStep
  split
  · refine List.IsPrefix.trans ?_ (foldl_grows _ (fun a x => dedupAdd_grows _ a x) _ _)
    split
    · exact dedupAdd_grows _ _ _
    · exact List.prefix_refl acc
  · exact List.prefix_refl acc

theorem rowClickStep_grows (acc : List String) (row : Elem) : acc <+: rowClickStep acc row := by
  unfold rowClickStep
  split
  · exact List.prefix_refl acc
  · split
    · split
      · exact dedupAdd_grows _ _ _
      · exact List.prefix_refl acc
    · exact List.prefix_refl acc

theorem foldl_from_nil_ne_nil {α : Type} (f : List String → α → List String) :
    ∀ (l : List α), l.foldl f [] ≠ [] → ∃ x ∈ l, f [] x ≠ [] := by
  intro l
  induction l with
  | nil => exact fun h => absurd rfl h
  | cons r t ih =>
    intro h
    by_cases hr : f [] r = []
    · rw [List.foldl_cons, hr] at h
      obtain ⟨x, hx, hfx⟩ := ih h
      exact ⟨x, List.mem_cons_of_mem r hx, hfx⟩
    · exact ⟨r, List.mem_cons_self r t, hr⟩

theorem foldl_nil_all {α : Type} (f : List String → α → List String)
    (hgrow : ∀ acc x, acc <+: f acc x) :
    ∀ (l : List α), l.foldl f [] = [] → ∀ x ∈ l, f [] x = [] := by
  intro l
  induction l with
  | nil => intro _ x hx; exact absurd hx (List.not_mem_nil x)
  | cons r t ih =>
    intro h x hx
    have hr : f [] r = [] := by
      have hpre : f [] r <+: t.foldl f (f [] r) := foldl_grows f hgrow t (f [] r)
      rw [List.foldl_cons] at h
      rw [h] at hpre
      exact List.prefix_nil.mp hpre
    rcases List.mem_cons.mp hx with hxr | hxt
    · exact hxr ▸ hr
    · rw [List.foldl_cons, hr] at h
      exact ih h x hxt

theorem dedupAdd_nil_ne {q : String → Bool} {c : String} (h : q c = true) :
    dedupAdd q [] c = [c] := by
  rw [dedupAdd, if_pos ⟨List.not_mem_nil c, h⟩]
  rfl

/-- Under DOM coherence (anchors inside rows are among the page's links), a
candidate accepted by the clickable-rows pass (ATTEMPT 4) would already have
been produced by the links pass (ATTEMPT 2), so once ATTEMPT 2 came up empty,
ATTEMPT 4 is empty as well. -/
theorem attempt4_nil (page : SearchPage)
    (hdom : ∀ e ∈ page.cssRows "tr, li, .pharmacy-item", ∀ a ∈ e.anchors, a ∈ page.links)
    (h2 : attempt2 [] page = []) : attempt4 [] page = [] := by
  by_contra h4
  obtain ⟨row, hrow, hfrow⟩ := foldl_from_nil_ne_nil rowClickStep _ h4
  -- dissect the firing row
  unfold rowClickStep at hfrow
  split at hfrow
  · exact hfrow rfl
  next a arest hanch =>
    split at hfrow
    · next hnacs =>
      split at hfrow
      · next hq =>
        by_cases hc : (!(extractQueryParam a.href == "") && len5 (extractQueryParam a.href)) = true
        · -- the same link would fire in linkStep, contradicting attempt2 [] page = []
          have hmem : a ∈ page.links :=
            hdom row (List.mem_of_mem_take hrow) a (hanch ▸ List.mem_cons_self a arest)
          have hstep : linkStep [] a = [] :=
            foldl_nil_all linkStep linkStep_grows page.links h2 a hmem
          rw [linkStep] at hstep
          have hp : (hrefPatterns.any fun p => containsL p.data a.href.data) = true := by
            apply List.any_eq_true.mpr
            exact ⟨"nacs_select.php", by simp [hrefPatterns],
              by rw [Bool.and_eq_true] at hnacs; exact hnacs.2⟩
          rw [if_pos hp, if_pos hq, dedupAdd_nil_ne hc] at hstep
          have hpre : [extractQueryParam a.href] <+:
              (findAllOds a.text).foldl (dedupAdd len5) [extractQueryParam a.href] :=
            foldl_grows _ (fun acc x => dedupAdd_grows _ acc x) _ _
          rw [hstep] at hpre
          exact List.cons_ne_nil _ _ (List.prefix_nil.mp hpre)
        · rw [dedupAdd, if_neg (by simp [hc])] at hfrow
          exact hfrow rfl
      · exact hfrow rfl
    · exact hfrow rfl

/-- C1: with a coherent DOM, `search_pharmacies` returns the capped result of
the first non-empty strategy among: structural rows (ATTEMPT 1), detail links
(ATTEMPT 2), full-page blind pattern scan (ATTEMPT 3), and client-side search
re-submission (ATTEMPT 5); the clickable-rows pass (ATTEMPT 4) is subsumed by
the links strategy and never contributes.  Later strategies are never merged
into an earlier strategy's result. -/
theorem search_first_strategy_wins (page : SearchPage)
    (hdom : ∀ e ∈ page.cssRows "tr, li, .pharmacy-item", ∀ a ∈ e.anchors, a ∈ page.links) :
    (attempt1 page ≠ [] → searchPage page = (attempt1 page).take 5) ∧
    (attempt1 page = [] → attempt2 [] page ≠ [] →
      searchPage page = (attempt2 [] page).take 5) ∧
    (attempt1 page = [] → attempt2 [] page = [] → attempt3 page ≠ [] →
      searchPage page = (attempt3 page).take 5) ∧
    (attempt1 page = [] → attempt2 [] page = [] → attempt3 page = [] →
      (attempt5 page ≠ [] → searchPage page = (attempt5 page).take 5) ∧
      (attempt5 page = [] → searchPage page = [])) := by
  refine ⟨fun h1 => ?_, fun h1 h2 => ?_, fun h1 h2 h3 => ?_, fun h1 h2 h3 => ?_⟩
  · rw [searchPage_eq, if_pos h1]
  · rw [searchPage_eq, if_neg (not_not_intro h1), h1, if_pos h2]
  · rw [searchPage_eq, if_neg (not_not_intro h1), h1, if_neg (not_not_intro h2),
      if_pos h3]
  · have h4 : attempt4 (attempt2 (attempt1 page) page) page = [] := by
      rw [h1, h2]
      exact attempt4_nil page hdom h2
    constructor
    · intro h5
      rw [searchPage_eq, if_neg (not_not_intro h1), h1, if_neg (not_not_intro h2),
        if_neg (not_not_intro h3), if_neg (not_not_intro (h1 ▸ h4)), if_pos h5]
    · intro h5
      rw [searchPage_eq, if_neg (not_not_intro h1), h1, if_neg (not_not_intro h2),
        if_neg (not_not_intro h3), if_neg (not_not_intro (h1 ▸ h4)),
        if_neg (not_not_intro h5)]

theorem search_first_strategy_wins_witness :
    attempt1 rowsOnlyPage ≠ [] ∧ searchPage rowsOnlyPage = (attempt1 rowsOnlyPage).take 5 := by
  have h := search_first_strategy_wins rowsOnlyPage (by decide)
  exact ⟨by decide, h.1 (by decide)⟩

/-! ## C6: postcode normalization -/

theorem isUpperA_false_of_digit {c : Char} (h : isDigitC c = true) : isUpperA c = false := by
  cases hu : isUpperA c with
  | false => rfl
  | true =>
    exfalso
    simp only [isDigitC, isUpperA, Bool.and_eq_true, decide_eq_true_eq] at h hu
    omega

theorem not_sep_of_digit {c : Char} (h : isDigitC c = true) : ¬(c = ' ' ∨ c = '-') := by
  intro hc
  rcases hc with rfl | rfl <;> exact absurd h (by decide)

theorem not_sep_of_upper {c : Char} (h : isUpperA c = true) : ¬(c = ' ' ∨ c = '-') := by
  intro hc
  rcases hc with rfl | rfl <;> exact absurd h (by decide)

theorem isAlnumU_of_digit {c : Char} (h : isDigitC c = true) : isAlnumU c = true := by
  simp [isAlnumU, h]

theorem isAlnumU_of_upper {c : Char} (h : isUpperA c = true) : isAlnumU c = true := by
  simp [isAlnumU, h]

/-- The postcode regex accepts every well-shaped outward/inward pair with no
separator, a space, or a hyphen in between, and captures exactly the outward
and inward groups. -/
theorem ukMatch_canonical : ∀ (ow sep iw : List Char), outwardShape ow = true →
    inwardShape iw = true → (sep = [] ∨ sep = [' '] ∨ sep = ['-']) →
    ukMatch (ow ++ sep ++ iw) = some (ow, iw) := by
  intro ow sep iw how hiw hsep
  obtain ⟨d, l1, l2, rfl, hd, hl1, hl2⟩ : ∃ d l1 l2, iw = [d, l1, l2] ∧
      isDigitC d = true ∧ isUpperA l1 = true ∧ isUpperA l2 = true := by
    match iw, hiw with
    | [d, l1, l2], hiw =>
      simp only [inwardShape, Bool.and_eq_true] at hiw
      exact ⟨d, l1, l2, rfl, hiw.1.1, hiw.1.2, hiw.2⟩
    | [], hiw => simp [inwardShape] at hiw
    | [d], hiw => simp [inwardShape] at hiw
    | [d, l1], hiw => simp [inwardShape] at hiw
    | d :: l1 :: l2 :: x :: r, hiw => simp [inwardShape] at hiw
  have hsp : isAlnumU ' ' = false := by decide
  have hdh : isAlnumU '-' = false := by decide
  match ow, how with
  | [a, d2], how =>
    simp only [outwardShape, Bool.and_eq_true] at how
    obtain ⟨ha, hd2⟩ := how
    rcases hsep with rfl | rfl | rfl <;>
      simp [ukMatch, ukDigit, ukOpt, ukSep, ukInward, ha, hd2, hd, hl1, hl2,
        isUpperA_false_of_digit hd2, isUpperA_false_of_digit hd, isAlnumU_of_digit hd,
        not_sep_of_digit hd, not_sep_of_upper hl1, hsp, hdh]
  | [a, b, c], how =>
    simp only [outwardShape, Bool.and_eq_true, Bool.or_eq_true] at how
    obtain ⟨ha, hbc⟩ := how
    rcases hbc with ⟨hb, hc⟩ | ⟨hb, hc⟩
    · -- letter digit alnum
      rcases hsep with rfl | rfl | rfl <;>
        simp [ukMatch, ukDigit, ukOpt, ukSep, ukInward, ha, hb, hc, hd, hl1, hl2,
          isUpperA_false_of_digit hb, isUpperA_false_of_digit hd, isAlnumU_of_digit hd,
          not_sep_of_digit hd, not_sep_of_upper hl1, hsp, hdh]
    · -- letter letter digit
      rcases hsep with rfl | rfl | rfl <;>
        simp [ukMatch, ukDigit, ukOpt, ukSep, ukInward, ha, hb, hc, hd, hl1, hl2,
          isUpperA_false_of_digit hd, isAlnumU_of_digit hd,
          not_sep_of_digit hd, not_sep_of_upper hl1, hsp, hdh]
  | [a, b, c, e], how =>
    simp only [outwardShape, Bool.and_eq_true] at how
    obtain ⟨⟨⟨ha, hb⟩, hc⟩, he⟩ := how
    rcases hsep with rfl | rfl | rfl <;>
      simp [ukMatch, ukDigit, ukOpt, ukSep, ukInward, ha, hb, hc, he, hd, hl1, hl2,
        isUpperA_false_of_digit hd, isAlnumU_of_digit hd,
        not_sep_of_digit hd, not_sep_of_upper hl1, hsp, hdh]
  | [], how => simp [outwardShape] at how
  | [a], how => simp [outwardShape] at how
  | a :: b :: c :: e :: f :: r, how => simp [outwardShape] at how

example : findAllOds "xxFA123 and FJ144zz" = ["FA123", "FJ144"] := by decide

example : findAllOds "AABCDEFGHIJ" = ["AABCD", "EFGHI"] := by decide

example : findAllOdsB "xFA123 FJ144 B1234" = ["FJ144", "B1234"] := by decide

example : is_valid_ods_code "FJ144" = true := by decide

example : is_valid_ods_code "CLASS" = false := by decide

example : is_valid_ods_code "FA12" = false := by decide

example : ukNormalize "sw1a1aa" = some "SW1A 1AA" := by decide

example : ukNormalize "SW1A 1AA" = some "SW1A 1AA" := by decide

example : ukNormalize "sw1a-1aa" = some "SW1A 1AA" := by decide

example : ukNormalize "w91sy" = some "W9 1SY" := by decide

example : ukNormalize "hello" = none := by decide

example : searchUkPc "Boots Pharmacy\nSW1A 1AA more" = some "SW1A 1AA" := by decide

example : searchUkPc "code W91SY here" = some "W91SY" := by decide

example : searchMetric ["Items", "Items Dispensed"] "Items Dispensed: 1,234 x (#56)" =
    some ("1,234", some "56") := by decide

example : searchMetric ["CPCS"] "nothing here" = none := by decide

example : searchEps ["EPS", "EPS Takeup", "EPS Nominations"] "EPS Takeup: 93% (#12 of n)" =
    some ("93%", some "12") := by decide

example : stripParenTail "Boots Pharmacy (FJ144)".data = "Boots Pharmacy".data := by decide

example : stripParenTail "Boots Pharmacy".data = "Boots Pharmacy".data := by decide

example : nameSearch "at Boots Pharmacy today".data = some "at Boots Pharmacy".data := by decide

example : nameSearch "visit Superdrug now".data = some "Superdrug".data := by decide

example : extractAddress "X" "Address: 12 High St\nLeeds" = "12 High St" := by decide

example : extractAddress "Boots" "Boots, 1 Road, Town, LS1 2AB end" =
    "1 Road, Town, LS1 2AB end" := by decide

/-- C6 counterexample: "W91SY" is a valid UK postcode by the code's own
regex, but written without a separator it is 5 characters long, so
`handle_message` intercepts it as a direct ODS code: no normalization and no
postcode search happen, unlike for the equivalent spaced form "W9 1SY".  The
claim's "any of the accepted separators (none, ...)" is therefore false. -/
theorem postcode_normalization_counterexample :
    ukMatch "W91SY".data = some ("W9".data, "1SY".data) ∧
    handle_message trivialEnv "w91sy" =
      (Outcome.directNotFound "W91SY", [Call.detail "W91SY"]) ∧
    handle_message trivialEnv "W9 1SY" =
      (Outcome.nothingFound "W9 1SY", [Call.search "W9 1SY"]) := by decide

/-- C6 (amended): (1) the normalization of lines 749-765 maps every
postcode-shaped string, in any casing and with separator "", " " or "-", to
the canonical "OUTWARD INWARD" form; (2) in `handle_message` it is applied
only to inputs that do not match the 5-character identifier shape: such
inputs are rejected with the format error, before any search, when they do
not match the postcode shape, and (3) are searched under the canonical
postcode when they do. -/
theorem postcode_normalization_amended :
    (∀ (s : String) (ow sep iw : List Char),
      outwardShape ow = true → inwardShape iw = true →
      (sep = [] ∨ sep = [' '] ∨ sep = ['-']) →
      stripL (s.data.map toUpperC) = ow ++ sep ++ iw →
      ukNormalize s = some ⟨ow ++ ' ' :: iw⟩) ∧
    (∀ (env : BotEnv) (text : String),
      pyMatchOdsCI (pyStripS text) = false →
      pyStripS text ≠ "" →
      ukNormalize (pyStripS text) = none →
      handle_message env text = (Outcome.formatError, [])) ∧
    (∀ (env : BotEnv) (text pc : String),
      pyMatchOdsCI (pyStripS text) = false →
      pyStripS text ≠ "" →
      ukNormalize (pyStripS text) = some pc →
      ((handle_message env text).2).head? = some (Call.search pc)) := by
  refine ⟨fun s ow sep iw how hiw hsep hdec => ?_,
    fun env text hci hne hnorm => ?_, fun env text pc hci hne hnorm => ?_⟩
  · unfold ukNormalize
    rw [hdec, ukMatch_canonical ow sep iw how hiw hsep]
  · simp only [handle_message]
    rw [if_neg (fun hcond => absurd hcond.1 (by rw [hci]; exact Bool.false_ne_true)),
      if_neg hne, hnorm]
  · simp only [handle_message]
    rw [if_neg (fun hcond => absurd hcond.1 (by rw [hci]; exact Bool.false_ne_true)),
      if_neg hne, hnorm]
    split
    · rename_i heq
      exact absurd heq (by simp)
    · rename_i pc2 heq
      have hpc := Option.some.inj heq
      subst hpc
      split
      · rfl
      · split
        · rfl
        · rfl

theorem postcode_normalization_amended_witness :
    ukNormalize "sw1a-1aa" = some "SW1A 1AA" ∧
    handle_message trivialEnv "hello world" = (Outcome.formatError, []) ∧
    ((handle_message trivialEnv "SW1A 1AA").2).head? = some (Call.search "SW1A 1AA") := by
  refine ⟨?_, ?_, ?_⟩
  · rw [postcode_normalization_amended.1 "sw1a-1aa" "SW1A".data ['-'] "1AA".data
      (by decide) (by decide) (Or.inr (Or.inr rfl)) (by decide)]
    rfl
  · exact postcode_normalization_amended.2.1 trivialEnv "hello world"
      (by decide) (by decide) (by decide)
  · exact postcode_normalization_amended.2.2 trivialEnv "SW1A 1AA" "SW1A 1AA"
      (by decide) (by decide) (by decide)

/-! ## C8: browser-start failure versus legitimate empty result -/

/-- C8 counterexample: a search whose browser session cannot start produces
exactly the same user-facing outcome (the "no pharmacies found" message, here
`Outcome.nothingFound`) as a successful search that finds zero identifiers —
`search_pharmacies` swallows the failure into an empty list (lines 333-335),
so the two outcomes are not distinguishable at the user-facing boundary. -/
theorem browser_failure_counterexample :
    handle_message trivialEnv "SW1A 1AA" =
      (Outcome.nothingFound "SW1A 1AA", [Call.search "SW1A 1AA"]) ∧
    handle_message emptyPageEnv "SW1A 1AA" =
      (Outcome.nothingFound "SW1A 1AA", [Call.search "SW1A 1AA"]) := by decide

/-- C8 (amended): a browser-start failure during a postcode search is caught
inside `search_pharmacies` and surfaces as the empty identifier list, so the
user receives the same "nothing found" outcome as a search that legitimately
yields zero identifiers; the generic failure message of lines 786-792 is not
produced by such failures. -/
theorem browser_failure_not_distinguished :
    (∀ (env : BotEnv) (text pc : String),
      pyMatchOdsCI (pyStripS text) = false →
      pyStripS text ≠ "" →
      ukNormalize (pyStripS text) = some pc →
      env.searchEnv pc = none →
      handle_message env text = (Outcome.nothingFound pc, [Call.search pc])) ∧
    (∀ (env : BotEnv) (text pc : String) (page : SearchPage),
      pyMatchOdsCI (pyStripS text) = false →
      pyStripS text ≠ "" →
      ukNormalize (pyStripS text) = some pc →
      env.searchEnv pc = some page →
      searchPage page = [] →
      handle_message env text = (Outcome.nothingFound pc, [Call.search pc])) := by
  constructor
  · intro env text pc hci hne hnorm hfail
    simp only [handle_message]
    rw [if_neg (fun hcond => absurd hcond.1 (by rw [hci]; exact Bool.false_ne_true)),
      if_neg hne, hnorm]
    split
    · rename_i heq
      exact absurd heq (by simp)
    · rename_i pc2 heq
      have hpc := Option.some.inj heq
      subst hpc
      rw [hfail]
      simp [search_pharmacies]
  · intro env text pc page hci hne hnorm hok hempty
    simp only [handle_message]
    rw [if_neg (fun hcond => absurd hcond.1 (by rw [hci]; exact Bool.false_ne_true)),
      if_neg hne, hnorm]
    split
    · rename_i heq
      exact absurd heq (by simp)
    · rename_i pc2 heq
      have hpc := Option.some.inj heq
      subst hpc
      rw [hok]
      simp [search_pharmacies, hempty]

theorem browser_failure_not_distinguished_witness :
    handle_message trivialEnv "W9 1SY" =
      (Outcome.nothingFound "W9 1SY", [Call.search "W9 1SY"]) ∧
    handle_message emptyPageEnv "W9 1SY" =
      (Outcome.nothingFound "W9 1SY", [Call.search "W9 1SY"]) :=
  ⟨browser_failure_not_distinguished.1 trivialEnv "W9 1SY" "W9 1SY"
      (by decide) (by decide) (by decide) rfl,
   browser_failure_not_distinguished.2 emptyPageEnv "W9 1SY" "W9 1SY" emptySearchPage
      (by decide) (by decide) (by decide) rfl (by decide)⟩
